import Mathlib

/-!
Verification of the solar ephemeris engine of sun-path-atlas.

Shallow embedding conventions:
* JavaScript `number` arithmetic is modelled exactly over a linear ordered
  field (instantiated at `ℚ` for concrete evaluation and at `ℝ` for the
  analytic claims); IEEE-754 rounding, `NaN`/`Infinity` propagation and the
  ECMAScript `TimeClip` range cut-off are not modelled.
* The transcendental functions of the JavaScript `Math` object are a
  parameter (`JSMath`): the engine's definitions are faithful to the source
  for an arbitrary interpretation of `Math.sin`/`cos`/`tan`/`asin`/`acos`/
  `atan2`/`PI`, and the analytic claims instantiate them with the real
  functions.
* `Date` values are the integer count of milliseconds since the Unix epoch;
  `Date.UTC`'s calendar arithmetic (including month/day overflow and the
  two-digit-year 1900 adjustment) is modelled with proleptic-Gregorian
  integer arithmetic.
-/

namespace SunAtlas

/-- Interpretation of the JavaScript `Math` primitives used by the engine. -/
structure JSMath (α : Type) where
  pi : α
  sin : α → α
  cos : α → α
  tan : α → α
  asin : α → α
  acos : α → α
  atan2 : α → α → α

variable {α : Type} [LinearOrderedField α]

/-- `src/modules/solar/utils.ts`: `deg2rad(deg) = deg * (Math.PI / 180)`. -/
def deg2rad (M : JSMath α) (deg : α) : α := deg * (M.pi / 180)

/-- `src/modules/solar/utils.ts`: `rad2deg(rad) = rad * (180 / Math.PI)`. -/
def rad2deg (M : JSMath α) (rad : α) : α := rad * (180 / M.pi)

/-- `src/modules/solar/utils.ts`: `clamp(value,min,max) = Math.min(max, Math.max(min, value))`. -/
def clamp (value lo hi : α) : α := min hi (max lo value)

/-- JavaScript truncation toward zero, as used by the `%` operator. -/
def jsTrunc [FloorRing α] (x : α) : ℤ := if x < 0 then ⌈x⌉ else ⌊x⌋

/-- The JavaScript remainder operator `a % b`: `a - b * trunc (a / b)`
(sign of the result follows the dividend). -/
def jsMod [FloorRing α] (a b : α) : α := a - b * (jsTrunc (a / b) : α)

/-- `src/modules/solar/utils.ts`: `normalizeDegrees(angle)`:
`angle % 360`, then `+ 360` when the remainder is negative. -/
def normalizeDegrees [FloorRing α] (angle : α) : α :=
  let normalized := jsMod angle 360
  if normalized < 0 then normalized + 360 else normalized

/-- `src/modules/solar/julian.ts`: Julian day and Julian century of an
instant given in milliseconds since the Unix epoch. -/
structure JulianDate (α : Type) where
  jd : α
  jc : α

/-- `toJulianDate(date)`: `jd = getTime()/86400000 + 2440587.5`,
`jc = (jd - 2451545.0) / 36525`. -/
def toJulianDate (ms : α) : JulianDate α :=
  let jd := ms / 86400000 + 2440587.5
  ⟨jd, (jd - 2451545.0) / 36525⟩

/-- Days from the Unix epoch (1970-01-01) to proleptic-Gregorian
`year-month-day` with `month ∈ [1,12]` and an arbitrary (possibly
overflowing) integer `day`; standard civil-from-days inverse used to model
ECMAScript `MakeDay`. -/
def daysFromCivil (year month day : ℤ) : ℤ :=
  let y := if month ≤ 2 then year - 1 else year
  let era := Int.fdiv y 400
  let yoe := y - era * 400
  let mp := Int.emod (month + 9) 12
  let doy := Int.ediv (153 * mp + 2) 5 + day - 1
  let doe := yoe * 365 + Int.ediv yoe 4 - Int.ediv yoe 100 + doy
  era * 146097 + doe - 719468

/-- `Date.UTC(year, monthIndex, day, 0, 0, 0)` in milliseconds since the
Unix epoch: month overflow is folded into the year, and years 0–99 are
interpreted as 1900–1999 (ECMAScript `MakeDay`/`MakeDate`; the `TimeClip`
range cut-off is not modelled). -/
def dateUTCms (year monthIndex day : ℤ) : ℤ :=
  let yy := if 0 ≤ year ∧ year ≤ 99 then year + 1900 else year
  let ym := yy + Int.fdiv monthIndex 12
  let mn := Int.emod monthIndex 12
  86400000 * daysFromCivil ym (mn + 1) day

/-- Decimal digit test (`[0-9]`, the regex class `\d`). -/
def isDigitC (c : Char) : Bool := 48 ≤ c.toNat && c.toNat ≤ 57

/-- Numeric value of a decimal digit character. -/
def digitValC (c : Char) : ℤ := (c.toNat : ℤ) - 48

/-- Value of a digit string (most significant first). -/
def digitsVal (ds : List Char) : ℤ := ds.foldl (fun acc c => 10 * acc + digitValC c) 0

/-- JavaScript `String.prototype.split` with a one-character separator:
`"".split('-') = [""]`, `"a--b".split('-') = ["a","","b"]`. -/
def splitOnChar (sep : Char) : List Char → List (List Char)
  | [] => [[]]
  | c :: rest =>
    if c = sep then [] :: splitOnChar sep rest
    else
      match splitOnChar sep rest with
      | [] => [[c]]
      | g :: gs => (c :: g) :: gs

/-- `Number.parseInt(s, 10)` restricted to ASCII: skip leading whitespace,
optional sign, then the longest digit prefix; `none` models `NaN` (no
digits). Trailing garbage is ignored, exactly as in JavaScript. -/
def jsParseInt (cs0 : List Char) : Option ℤ :=
  let cs := cs0.dropWhile Char.isWhitespace
  match cs with
  | '+' :: rest =>
      let ds := rest.takeWhile isDigitC
      if ds.isEmpty then none else some (digitsVal ds)
  | '-' :: rest =>
      let ds := rest.takeWhile isDigitC
      if ds.isEmpty then none else some (-(digitsVal ds))
  | rest =>
      let ds := rest.takeWhile isDigitC
      if ds.isEmpty then none else some (digitsVal ds)

/-- `Number.parseInt` applied to a possibly-`undefined` destructured
component (`parseInt(undefined, 10)` is `NaN`). -/
def jsParseIntPart (part : Option (List Char)) : Option ℤ :=
  match part with
  | none => none
  | some s => jsParseInt s

/-- Lines 30–35 of `sunriseSunset.ts` (and 23–28 of the twilight module):
split the date string on `'-'`, `parseInt` the first three components, and
fail unless all three are finite. -/
def parseDate (s : String) : Option (ℤ × ℤ × ℤ) :=
  let parts := splitOnChar '-' s.toList
  match jsParseIntPart (parts.get? 0), jsParseIntPart (parts.get? 1),
      jsParseIntPart (parts.get? 2) with
  | some y, some m, some d => some (y, m, d)
  | _, _, _ => none

/-- Result record of `solarDeclinationAndEoT` (`solarPosition.ts`). -/
structure SolarDeclinationResult (α : Type) where
  declination : α
  equationOfTime : α
  deriving DecidableEq

/-- `src/modules/solar/solarPosition.ts`, lines 16–59: the NOAA
low-precision series for solar declination (degrees) and the equation of
time (minutes), as a function of the Julian century. -/
def solarDeclinationAndEoT [FloorRing α] (M : JSMath α) (jc : α) :
    SolarDeclinationResult α :=
  let geomMeanLong := normalizeDegrees (280.46646 + jc * (36000.76983 + jc * 0.0003032))
  let geomMeanAnomaly := 357.52911 + jc * (35999.05029 - 0.0001537 * jc)
  let eccentEarthOrbit := 0.016708634 - jc * (0.000042037 + 0.0000001267 * jc)
  let sunEqCenter :=
    M.sin (deg2rad M geomMeanAnomaly) * (1.914602 - jc * (0.004817 + 0.000014 * jc)) +
    M.sin (deg2rad M (2 * geomMeanAnomaly)) * (0.019993 - 0.000101 * jc) +
    M.sin (deg2rad M (3 * geomMeanAnomaly)) * 0.000289
  let sunTrueLong := geomMeanLong + sunEqCenter
  let sunAppLong :=
    sunTrueLong - 0.00569 - 0.00478 * M.sin (deg2rad M (125.04 - 1934.136 * jc))
  let meanObliq :=
    23 + (26 + (21.448 - jc * (46.815 + jc * (0.00059 - jc * 0.001813))) / 60) / 60
  let obliqCorr := meanObliq + 0.00256 * M.cos (deg2rad M (125.04 - 1934.136 * jc))
  let declination := rad2deg M
    (M.asin (M.sin (deg2rad M obliqCorr) * M.sin (deg2rad M sunAppLong)))
  let y := M.tan (deg2rad M obliqCorr / 2)
  let y2 := y * y
  let equationOfTime :=
    4 * rad2deg M
      (y2 * M.sin (2 * deg2rad M geomMeanLong) -
        2 * eccentEarthOrbit * M.sin (deg2rad M geomMeanAnomaly) +
        4 * eccentEarthOrbit * y2 * M.sin (deg2rad M geomMeanAnomaly) *
          M.cos (2 * deg2rad M geomMeanLong) -
        0.5 * y2 * y2 * M.sin (4 * deg2rad M geomMeanLong) -
        1.25 * eccentEarthOrbit * eccentEarthOrbit *
          M.sin (2 * deg2rad M geomMeanAnomaly))
  ⟨declination, equationOfTime⟩

/-- `status` field of `SunEventTimes` (`sunriseSunset.ts`). -/
inductive SunStatus where
  | normal
  | polarDay
  | polarNight
  deriving DecidableEq

/-- `SunEventTimes` record of `sunriseSunset.ts`; `none` models `null`. -/
structure SunEventTimes (α : Type) where
  sunriseMinutes : Option α
  sunsetMinutes : Option α
  solarNoonMinutes : Option α
  daylightMinutes : Option α
  status : SunStatus
  deriving DecidableEq

/-- `src/modules/solar/sunriseSunset.ts`, lines 23–90. `options` models
the optional `sunAltitude` entry of `SunEventOptions` (default −0.833). -/
def sunriseSunset [FloorRing α] (M : JSMath α) (latitude longitude : α)
    (dateString : String) (tzOffsetMinutes : α) (options : Option α) :
    SunEventTimes α :=
  match parseDate dateString with
  | none => ⟨none, none, none, none, .normal⟩
  | some (year, month, day) =>
    let jc := (toJulianDate ((dateUTCms year (month - 1) day : ℤ) : α)).jc
    let r := solarDeclinationAndEoT M jc
    let solarNoonUtcMinutes := 720 - 4 * longitude - r.equationOfTime
    let solarNoonMinutes := solarNoonUtcMinutes + tzOffsetMinutes
    let latRad := deg2rad M latitude
    let declRad := deg2rad M r.declination
    let zenith := 90 - options.getD (-0.833)
    let cosH :=
      M.cos (deg2rad M zenith) / (M.cos latRad * M.cos declRad) -
        M.tan latRad * M.tan declRad
    if cosH > 1 then
      ⟨none, none, some solarNoonMinutes, some 0, .polarNight⟩
    else if cosH < -1 then
      ⟨none, none, some solarNoonMinutes, some 1440, .polarDay⟩
    else
      let hourAngle := rad2deg M (M.acos (clamp cosH (-1) 1))
      ⟨some (solarNoonUtcMinutes - 4 * hourAngle + tzOffsetMinutes),
        some (solarNoonUtcMinutes + 4 * hourAngle + tzOffsetMinutes),
        some solarNoonMinutes, some (8 * hourAngle), .normal⟩

/-- `TwilightBand` record of the twilight module; `none` models `null`;
`stop` models the source field `end` (a Lean keyword). -/
structure TwilightBand (α : Type) where
  start : Option α
  stop : Option α
  deriving DecidableEq

/-- `TwilightTimes` record of the twilight module. -/
structure TwilightTimes (α : Type) where
  civil : TwilightBand α
  nautical : TwilightBand α
  astronomical : TwilightBand α
  deriving DecidableEq

/-- Twilight module (unnamed source file), lines 16–61: `twilightBand`,
the hour-angle solver specialised to a given target sun-center altitude,
reporting only the start/end pair. -/
def twilightBand [FloorRing α] (M : JSMath α) (latitude longitude : α)
    (dateString : String) (tzOffsetMinutes : α) (sunAltitude : α) :
    TwilightBand α :=
  match parseDate dateString with
  | none => ⟨none, none⟩
  | some (year, month, day) =>
    let jc := (toJulianDate ((dateUTCms year (month - 1) day : ℤ) : α)).jc
    let r := solarDeclinationAndEoT M jc
    let solarNoonUtcMinutes := 720 - 4 * longitude - r.equationOfTime
    let latRad := deg2rad M latitude
    let declRad := deg2rad M r.declination
    let zenith := 90 - sunAltitude
    let cosH :=
      M.cos (deg2rad M zenith) / (M.cos latRad * M.cos declRad) -
        M.tan latRad * M.tan declRad
    if cosH > 1 then ⟨none, none⟩
    else if cosH < -1 then ⟨none, none⟩
    else
      let hourAngle := rad2deg M (M.acos (clamp cosH (-1) 1))
      ⟨some (solarNoonUtcMinutes - 4 * hourAngle + tzOffsetMinutes),
        some (solarNoonUtcMinutes + 4 * hourAngle + tzOffsetMinutes)⟩

/-- Twilight module, lines 63–74: `twilightTimes` reuses `twilightBand`
with target altitudes −6° (civil), −12° (nautical), −18° (astronomical). -/
def twilightTimes [FloorRing α] (M : JSMath α) (latitude longitude : α)
    (dateString : String) (tzOffsetMinutes : α) : TwilightTimes α :=
  ⟨twilightBand M latitude longitude dateString tzOffsetMinutes (-6),
    twilightBand M latitude longitude dateString tzOffsetMinutes (-12),
    twilightBand M latitude longitude dateString tzOffsetMinutes (-18)⟩

/-- `Date.prototype.getUTCHours` for an instant `t` (ms since the epoch);
ECMAScript time computations use floor division/modulo. -/
def getUTCHours (t : ℤ) : ℤ := Int.ediv (Int.emod t 86400000) 3600000

/-- `Date.prototype.getUTCMinutes`. -/
def getUTCMinutes (t : ℤ) : ℤ := Int.ediv (Int.emod t 3600000) 60000

/-- `Date.prototype.getUTCSeconds`. -/
def getUTCSeconds (t : ℤ) : ℤ := Int.ediv (Int.emod t 60000) 1000

/-- `Date.prototype.getUTCMilliseconds`. -/
def getUTCMilliseconds (t : ℤ) : ℤ := Int.emod t 1000

/-- `SolarPosition` record of `solarPosition.ts`. -/
structure SolarPosition (α : Type) where
  altitude : α
  azimuth : α
  declination : α
  equationOfTime : α
  deriving DecidableEq

/-- `src/modules/solar/solarPosition.ts`, lines 66–103: NOAA-style solar
position for an instant `t` in milliseconds since the Unix epoch. -/
def solarPosition [FloorRing α] (M : JSMath α) (latitude longitude : α)
    (t : ℤ) : SolarPosition α :=
  let jc := (toJulianDate ((t : ℤ) : α)).jc
  let r := solarDeclinationAndEoT M jc
  let utcMinutes : α :=
    (getUTCHours t : α) * 60 + (getUTCMinutes t : α) +
      (getUTCSeconds t : α) / 60 + (getUTCMilliseconds t : α) / 60000
  let trueSolarTime0 := jsMod (utcMinutes + r.equationOfTime + 4 * longitude) 1440
  let trueSolarTime := if trueSolarTime0 < 0 then trueSolarTime0 + 1440 else trueSolarTime0
  let hourAngle0 := trueSolarTime / 4 - 180
  let hourAngle := if hourAngle0 < -180 then hourAngle0 + 360 else hourAngle0
  let latitudeRad := deg2rad M latitude
  let declinationRad := deg2rad M r.declination
  let hourAngleRad := deg2rad M hourAngle
  let cosZenith :=
    M.sin latitudeRad * M.sin declinationRad +
      M.cos latitudeRad * M.cos declinationRad * M.cos hourAngleRad
  let zenith := rad2deg M (M.acos (clamp cosZenith (-1) 1))
  let altitude := 90 - zenith
  let azimuth := normalizeDegrees
    (rad2deg M
        (M.atan2 (M.sin hourAngleRad)
          (M.cos hourAngleRad * M.sin latitudeRad -
            M.tan declinationRad * M.cos latitudeRad)) + 180)
  ⟨altitude, azimuth, r.declination, r.equationOfTime⟩

/-- One `{ minute, altitude }` sample of `photography.ts`. -/
structure SamplePoint (α : Type) where
  minute : α
  altitude : α
  deriving DecidableEq

/-- `SolarWindow` record of `photography.ts`; `stop` models the source
field `end` (a Lean keyword). -/
structure SolarWindow (α : Type) where
  start : α
  stop : α
  deriving DecidableEq

/-- `PhotoWindows` record of `photography.ts`. -/
structure PhotoWindows (α : Type) where
  golden : List (SolarWindow α)
  blue : List (SolarWindow α)
  deriving DecidableEq

variable {β : Type} [LinearOrder β] {γ : Type} [LinearOrderedRing γ]

/-- The loop of `findWindows` (`photography.ts`, lines 33–43), with the
mutable `start`/`lastMinute` variables as explicit accumulators; the final
flush (lines 44–46) is the `nil` case. -/
def findWindowsAux (minAlt maxAlt : β) (start? lastMinute? : Option β) :
    List (SamplePoint β) → List (SolarWindow β)
  | [] =>
    match start? with
    | some s => [⟨s, lastMinute?.getD s⟩]
    | none => []
  | point :: rest =>
    if minAlt ≤ point.altitude ∧ point.altitude ≤ maxAlt then
      findWindowsAux minAlt maxAlt (some (start?.getD point.minute))
        (some point.minute) rest
    else
      match start? with
      | some s => ⟨s, lastMinute?.getD s⟩ :: findWindowsAux minAlt maxAlt none none rest
      | none => findWindowsAux minAlt maxAlt none lastMinute? rest

/-- `photography.ts`, lines 25–48: `findWindows(series, minAlt, maxAlt)`. -/
def findWindows (series : List (SamplePoint β)) (minAlt maxAlt : β) :
    List (SolarWindow β) :=
  findWindowsAux minAlt maxAlt none none series

/-- `photography.ts`, line 11: `GOLDEN_DEFAULT = [0, 6]`. -/
def GOLDEN_DEFAULT : γ × γ := (0, 6)

/-- `photography.ts`, line 12: `BLUE_DEFAULT = [-6, 0]`. -/
def BLUE_DEFAULT : γ × γ := (-6, 0)

/-- `photography.ts`, lines 14–23: `computePhotoWindows`; the two range
parameters default to `GOLDEN_DEFAULT`/`BLUE_DEFAULT` at call sites. -/
def computePhotoWindows (altitudeByMinute : List (SamplePoint γ))
    (goldenRange blueRange : γ × γ) : PhotoWindows γ :=
  ⟨findWindows altitudeByMinute goldenRange.1 goldenRange.2,
    findWindows altitudeByMinute blueRange.1 blueRange.2⟩

/-- `TimezoneParseResult` record of the timezone parser module. -/
structure TimezoneParseResult where
  minutes : ℤ
  isValid : Bool
  deriving DecidableEq

/-- Exactly two digit characters anchored at the end (`(\d{2})$`). -/
def twoDigits (l : List Char) : Option ℤ :=
  match l with
  | [c1, c2] => if isDigitC c1 && isDigitC c2 then some (digitsVal [c1, c2]) else none
  | _ => none

/-- The tail group `(?::?(\d{2}))?$` of `TZ_PATTERN`: an optional
occurrence of an optional colon followed by exactly two digits, anchored at
the end; returns the minutes digits' value (`'0'` when the group is
absent, modelling `match[3] ?? '0'`). -/
def tzMinutesPart (l : List Char) : Option ℤ :=
  match l with
  | [] => some 0
  | c :: rest => if c = ':' then twoDigits rest else twoDigits l

/-- The body `(\d{1,2})(?::?(\d{2}))?$` of `TZ_PATTERN` after the optional
sign: the hour field is greedy (two digits when the tail still matches,
falling back to one digit), exactly as the backtracking regex behaves. -/
def tzHoursMinutes : List Char → Option (ℤ × ℤ)
  | [] => none
  | c1 :: rest =>
    if isDigitC c1 then
      match rest with
      | c2 :: rest2 =>
        if isDigitC c2 then
          match tzMinutesPart rest2 with
          | some m => some (digitsVal [c1, c2], m)
          | none =>
            match tzMinutesPart rest with
            | some m => some (digitValC c1, m)
            | none => none
        else
          match tzMinutesPart rest with
          | some m => some (digitValC c1, m)
          | none => none
      | [] => some (digitValC c1, 0)
    else none

/-- `TZ_PATTERN = /^([+-])?(\d{1,2})(?::?(\d{2}))?$/` applied to `cleaned`:
returns the sign (+1/−1, `'+'` when the sign group is absent), the parsed
hour value and the parsed minute value. -/
def tzMatch (cs : List Char) : Option (ℤ × ℤ × ℤ) :=
  match cs with
  | c :: rest =>
    if c = '+' then (tzHoursMinutes rest).map (fun hm => (1, hm.1, hm.2))
    else if c = '-' then (tzHoursMinutes rest).map (fun hm => (-1, hm.1, hm.2))
    else (tzHoursMinutes cs).map (fun hm => (1, hm.1, hm.2))
  | [] => none

/-- JavaScript `String.prototype.trim` restricted to ASCII whitespace. -/
def jsTrim (cs : List Char) : List Char :=
  ((cs.dropWhile Char.isWhitespace).reverse.dropWhile Char.isWhitespace).reverse

/-- `raw.replace(/^UTC/, '').replace(/^GMT/, '')`: drop a leading `UTC`,
then a leading `GMT`, from the already-uppercased text. -/
def tzStripPrefixes (cs : List Char) : List Char :=
  let afterUtc := if cs.take 3 = ['U', 'T', 'C'] then cs.drop 3 else cs
  if afterUtc.take 3 = ['G', 'M', 'T'] then afterUtc.drop 3 else afterUtc

/-- `input.trim().toUpperCase()` (line 83 of the timezone parser). -/
def tzRaw (input : String) : List Char := (jsTrim input.toList).map Char.toUpper

/-- Timezone parser module (unnamed source file), lines 82–111:
`parseTimezoneOffset(input)`. The `Number.isNaN` re-check of the source is
vacuous in this model because `tzMatch` only ever parses digit characters. -/
def parseTimezoneOffset (input : String) : TimezoneParseResult :=
  let raw := tzRaw input
  if raw.isEmpty then ⟨0, false⟩
  else if raw = ['Z'] ∨ raw = ['U', 'T', 'C'] ∨ raw = ['G', 'M', 'T'] then ⟨0, true⟩
  else
    let cleaned := tzStripPrefixes raw
    match tzMatch cleaned with
    | none => ⟨0, false⟩
    | some (sign, hours, minutes) =>
      if hours > 14 ∨ minutes ≥ 60 then ⟨0, false⟩
      else ⟨sign * (hours * 60 + minutes), true⟩

/-- Julian century of UTC midnight of the civil date `year-month-day`
(the instant `Date.UTC(year, month - 1, day, 0, 0, 0)`), exactly the value
`sunriseSunset` and `twilightBand` feed to `solarDeclinationAndEoT`. -/
def utcMidnightJc (year month day : ℤ) : α :=
  (toJulianDate ((dateUTCms year (month - 1) day : ℤ) : α)).jc

/-- Modelled from the spec: the Julian century of the local midnight of the
civil date, i.e. of UTC midnight of the date shifted by the timezone offset
(local midnight at UTC+`tz` is `tz` minutes before UTC midnight). -/
def localMidnightJc (year month day : ℤ) (tzOffsetMinutes : α) : α :=
  (toJulianDate (((dateUTCms year (month - 1) day : ℤ) : α) -
    tzOffsetMinutes * 60000)).jc

/-- Modelled from the spec: the event solver of §4.4 as a function of the
Julian century at which declination and equation of time are evaluated
(lines 47–90 of `sunriseSunset.ts` with `jc` abstracted); used to state
which instant's `solarDeclinationAndEoT` output `sunriseSunset` uses. -/
def sunriseSunsetGivenJc [FloorRing α] (M : JSMath α) (latitude longitude : α)
    (tzOffsetMinutes : α) (options : Option α) (jc : α) : SunEventTimes α :=
  let r := solarDeclinationAndEoT M jc
  let solarNoonUtcMinutes := 720 - 4 * longitude - r.equationOfTime
  let solarNoonMinutes := solarNoonUtcMinutes + tzOffsetMinutes
  let latRad := deg2rad M latitude
  let declRad := deg2rad M r.declination
  let zenith := 90 - options.getD (-0.833)
  let cosH :=
    M.cos (deg2rad M zenith) / (M.cos latRad * M.cos declRad) -
      M.tan latRad * M.tan declRad
  if cosH > 1 then
    ⟨none, none, some solarNoonMinutes, some 0, .polarNight⟩
  else if cosH < -1 then
    ⟨none, none, some solarNoonMinutes, some 1440, .polarDay⟩
  else
    let hourAngle := rad2deg M (M.acos (clamp cosH (-1) 1))
    ⟨some (solarNoonUtcMinutes - 4 * hourAngle + tzOffsetMinutes),
      some (solarNoonUtcMinutes + 4 * hourAngle + tzOffsetMinutes),
      some solarNoonMinutes, some (8 * hourAngle), .normal⟩

/-- A concrete computable interpretation of the `Math` primitives over `ℚ`,
used to evaluate the engine on explicit inputs in witnesses and
counterexamples of the structural (interpretation-independent) claims. -/
def ratMath : JSMath ℚ :=
  ⟨180, id, fun _ => 0, fun _ => 0, id, id, fun a b => a + b⟩

/-- On a parseable date, `sunriseSunset` is exactly the jc-parametric event
solver applied at the Julian century of UTC midnight of the civil date. -/
theorem sunriseSunset_eq_givenJc [FloorRing α] (M : JSMath α)
    (latitude longitude tzOffsetMinutes : α) (options : Option α)
    (dateString : String) (y m d : ℤ)
    (h : parseDate dateString = some (y, m, d)) :
    sunriseSunset M latitude longitude dateString tzOffsetMinutes options =
      sunriseSunsetGivenJc M latitude longitude tzOffsetMinutes options
        (utcMidnightJc y m d) := by
  simp only [sunriseSunset, h, sunriseSunsetGivenJc, utcMidnightJc]

/-- `twilightBand` agrees with `sunriseSunset` run at the same target
altitude, projected to the (sunrise, sunset) pair. -/
theorem twilightBand_eq_sunriseSunset [FloorRing α] (M : JSMath α)
    (latitude longitude tzOffsetMinutes sunAltitude : α) (dateString : String) :
    twilightBand M latitude longitude dateString tzOffsetMinutes sunAltitude =
      ⟨(sunriseSunset M latitude longitude dateString tzOffsetMinutes
          (some sunAltitude)).sunriseMinutes,
        (sunriseSunset M latitude longitude dateString tzOffsetMinutes
          (some sunAltitude)).sunsetMinutes⟩ := by
  cases h : parseDate dateString with
  | none => simp [twilightBand, sunriseSunset, h]
  | some ymd =>
    obtain ⟨y, m, d⟩ := ymd
    simp only [twilightBand, sunriseSunset, h, Option.getD_some]
    split
    · rfl
    · split <;> rfl

/-- C7: for every latitude, longitude, date string and timezone offset (and
every interpretation of the `Math` primitives), the civil, nautical and
astronomical bands returned by `twilightTimes` equal the (sunriseMinutes,
sunsetMinutes) pair returned by `sunriseSunset` called with `sunAltitude`
option −6, −12 and −18 respectively — including the all-`null` agreement on
unparseable dates and in the `cosH > 1` / `cosH < −1` degenerate cases. -/
theorem C7_twilight_reuses_solver [FloorRing α] (M : JSMath α)
    (latitude longitude tzOffsetMinutes : α) (dateString : String) :
    (twilightTimes M latitude longitude dateString tzOffsetMinutes).civil =
        ⟨(sunriseSunset M latitude longitude dateString tzOffsetMinutes
            (some (-6))).sunriseMinutes,
          (sunriseSunset M latitude longitude dateString tzOffsetMinutes
            (some (-6))).sunsetMinutes⟩ ∧
      (twilightTimes M latitude longitude dateString tzOffsetMinutes).nautical =
        ⟨(sunriseSunset M latitude longitude dateString tzOffsetMinutes
            (some (-12))).sunriseMinutes,
          (sunriseSunset M latitude longitude dateString tzOffsetMinutes
            (some (-12))).sunsetMinutes⟩ ∧
      (twilightTimes M latitude longitude dateString tzOffsetMinutes).astronomical =
        ⟨(sunriseSunset M latitude longitude dateString tzOffsetMinutes
            (some (-18))).sunriseMinutes,
          (sunriseSunset M latitude longitude dateString tzOffsetMinutes
            (some (-18))).sunsetMinutes⟩ := by
  refine ⟨?_, ?_, ?_⟩ <;>
    exact twilightBand_eq_sunriseSunset M latitude longitude tzOffsetMinutes _ dateString

/-- C6: whenever any of the three `'-'`-separated components of the date
string fails to parse to a finite integer, `sunriseSunset` returns (without
throwing) the all-`null`, status-`normal` record. -/
theorem C6_unparseable_date_all_null [FloorRing α] (M : JSMath α)
    (latitude longitude tzOffsetMinutes : α) (options : Option α)
    (dateString : String)
    (h : jsParseIntPart ((splitOnChar '-' dateString.toList).get? 0) = none ∨
      jsParseIntPart ((splitOnChar '-' dateString.toList).get? 1) = none ∨
      jsParseIntPart ((splitOnChar '-' dateString.toList).get? 2) = none) :
    sunriseSunset M latitude longitude dateString tzOffsetMinutes options =
      ⟨none, none, none, none, .normal⟩ := by
  have hp : parseDate dateString = none := by
    simp only [parseDate]
    rcases h with h0 | h1 | h2
    · rw [h0]
    · rw [h1]
      cases jsParseIntPart ((splitOnChar '-' dateString.toList).get? 0) <;> rfl
    · rw [h2]
      cases jsParseIntPart ((splitOnChar '-' dateString.toList).get? 0) <;>
        cases jsParseIntPart ((splitOnChar '-' dateString.toList).get? 1) <;> rfl
  simp only [sunriseSunset, hp]

/-- Witness for C6 at the concrete unparseable date string "banana". -/
theorem C6_witness :
    jsParseIntPart ((splitOnChar '-' "banana".toList).get? 0) = none ∧
      sunriseSunset ratMath 40 (-74) "banana" (-300) none =
        ⟨none, none, none, none, .normal⟩ :=
  ⟨by decide, C6_unparseable_date_all_null ratMath 40 (-74) (-300) none "banana"
    (Or.inl (by decide))⟩

/-- In every branch (normal, polar day, polar night), the solar-noon field
of the jc-parametric solver is `720 − 4·lon − EoT + tz`. -/
theorem givenJc_solarNoon [FloorRing α] (M : JSMath α)
    (latitude longitude tzOffsetMinutes : α) (options : Option α) (jc : α) :
    (sunriseSunsetGivenJc M latitude longitude tzOffsetMinutes options
        jc).solarNoonMinutes =
      some (720 - 4 * longitude -
        (solarDeclinationAndEoT M jc).equationOfTime + tzOffsetMinutes) := by
  simp only [sunriseSunsetGivenJc]
  split
  · rfl
  · split <;> rfl

/-- C1 counterexample: on date 2024-01-15 with timezone offset +480 min,
`sunriseSunset` (under the concrete `ratMath` interpretation) differs from
the solver evaluated at the Julian century of local midnight: the code
feeds `solarDeclinationAndEoT` the Julian century of UTC midnight, not of
local midnight, so the claim fails at this input. -/
theorem C1_counterexample :
    parseDate "2024-01-15" = some (2024, 1, 15) ∧
      sunriseSunset ratMath 0 0 "2024-01-15" 480 none ≠
        sunriseSunsetGivenJc ratMath 0 0 480 none
          (localMidnightJc 2024 1 15 480) := by
  refine ⟨by decide, ?_⟩
  have hms : (dateUTCms 2024 0 15 : ℤ) = 1705276800000 := by decide
  have hU : (utcMidnightJc 2024 1 15 : ℚ) = 5853 / 24350 := by
    norm_num [utcMidnightJc, toJulianDate, hms]
  have hL : (localMidnightJc 2024 1 15 480 : ℚ) = 2107 / 8766 := by
    norm_num [localMidnightJc, toJulianDate, hms]
  have key : (solarDeclinationAndEoT ratMath ((5853 : ℚ) / 24350)).equationOfTime ≠
      (solarDeclinationAndEoT ratMath ((2107 : ℚ) / 8766)).equationOfTime := by
    simp only [solarDeclinationAndEoT, ratMath, deg2rad, rad2deg, id_eq]
    norm_num
  rw [sunriseSunset_eq_givenJc ratMath 0 0 480 none "2024-01-15" 2024 1 15
    (by decide)]
  intro h
  have h2 := congrArg SunEventTimes.solarNoonMinutes h
  rw [givenJc_solarNoon, givenJc_solarNoon, hU, hL] at h2
  simp only [Option.some.injEq] at h2
  exact key (by linarith)

/-- C1 (amended): for every latitude, longitude, parseable civil date
string and timezone offset (and every interpretation of the `Math`
primitives), the declination and equation of time that `sunriseSunset`
uses are `solarDeclinationAndEoT` evaluated at the Julian century of UTC
midnight of that civil date — with no timezone shift, so not at local
midnight. -/
theorem C1_uses_utc_midnight_jc [FloorRing α] (M : JSMath α)
    (latitude longitude tzOffsetMinutes : α) (options : Option α)
    (dateString : String) (y m d : ℤ)
    (h : parseDate dateString = some (y, m, d)) :
    sunriseSunset M latitude longitude dateString tzOffsetMinutes options =
      sunriseSunsetGivenJc M latitude longitude tzOffsetMinutes options
        (utcMidnightJc y m d) :=
  sunriseSunset_eq_givenJc M latitude longitude tzOffsetMinutes options
    dateString y m d h

/-- Witness for the amended C1 at a concrete input. -/
theorem C1_witness :
    parseDate "2024-01-15" = some (2024, 1, 15) ∧
      sunriseSunset ratMath 0 0 "2024-01-15" 480 none =
        sunriseSunsetGivenJc ratMath 0 0 480 none (utcMidnightJc 2024 1 15) :=
  ⟨by decide, C1_uses_utc_midnight_jc ratMath 0 0 480 none "2024-01-15"
    2024 1 15 (by decide)⟩

/-- When `cosH > 1` the jc-parametric solver returns the polar-night
record. -/
theorem givenJc_polarNight [FloorRing α] (M : JSMath α)
    (latitude longitude tzOffsetMinutes : α) (options : Option α) (jc : α)
    (h : M.cos (deg2rad M (90 - options.getD (-0.833))) /
          (M.cos (deg2rad M latitude) *
            M.cos (deg2rad M (solarDeclinationAndEoT M jc).declination)) -
        M.tan (deg2rad M latitude) *
          M.tan (deg2rad M (solarDeclinationAndEoT M jc).declination) > 1) :
    sunriseSunsetGivenJc M latitude longitude tzOffsetMinutes options jc =
      ⟨none, none,
        some (720 - 4 * longitude -
          (solarDeclinationAndEoT M jc).equationOfTime + tzOffsetMinutes),
        some 0, .polarNight⟩ := by
  simp only [sunriseSunsetGivenJc]
  split_ifs with h1
  · rfl
  · exact absurd h h1

/-- When `cosH < −1` the jc-parametric solver returns the polar-day
record. -/
theorem givenJc_polarDay [FloorRing α] (M : JSMath α)
    (latitude longitude tzOffsetMinutes : α) (options : Option α) (jc : α)
    (h : M.cos (deg2rad M (90 - options.getD (-0.833))) /
          (M.cos (deg2rad M latitude) *
            M.cos (deg2rad M (solarDeclinationAndEoT M jc).declination)) -
        M.tan (deg2rad M latitude) *
          M.tan (deg2rad M (solarDeclinationAndEoT M jc).declination) < -1) :
    sunriseSunsetGivenJc M latitude longitude tzOffsetMinutes options jc =
      ⟨none, none,
        some (720 - 4 * longitude -
          (solarDeclinationAndEoT M jc).equationOfTime + tzOffsetMinutes),
        some 1440, .polarDay⟩ := by
  simp only [sunriseSunsetGivenJc]
  split_ifs with h1
  · linarith
  · rfl

/-- C2: for every parseable date, `sunriseSunset` returns
`solarNoonMinutes = 720 − 4·longitude − equationOfTime + tzOffsetMinutes`
in every status; when `cosH > 1` it returns status polar-night with `null`
sunrise/sunset and `daylightMinutes = 0`; when `cosH < −1` it returns
status polar-day with `null` sunrise/sunset and `daylightMinutes = 1440`. -/
theorem C2_solar_noon_and_polar_branches [FloorRing α] (M : JSMath α)
    (latitude longitude tzOffsetMinutes : α) (options : Option α)
    (dateString : String) (y m d : ℤ)
    (h : parseDate dateString = some (y, m, d)) :
    (sunriseSunset M latitude longitude dateString tzOffsetMinutes
        options).solarNoonMinutes =
      some (720 - 4 * longitude -
        (solarDeclinationAndEoT M (utcMidnightJc y m d)).equationOfTime +
          tzOffsetMinutes) ∧
      (M.cos (deg2rad M (90 - options.getD (-0.833))) /
            (M.cos (deg2rad M latitude) *
              M.cos (deg2rad M
                (solarDeclinationAndEoT M (utcMidnightJc y m d)).declination)) -
          M.tan (deg2rad M latitude) *
            M.tan (deg2rad M
              (solarDeclinationAndEoT M (utcMidnightJc y m d)).declination) > 1 →
        sunriseSunset M latitude longitude dateString tzOffsetMinutes options =
          ⟨none, none,
            some (720 - 4 * longitude -
              (solarDeclinationAndEoT M (utcMidnightJc y m d)).equationOfTime +
                tzOffsetMinutes),
            some 0, .polarNight⟩) ∧
      (M.cos (deg2rad M (90 - options.getD (-0.833))) /
            (M.cos (deg2rad M latitude) *
              M.cos (deg2rad M
                (solarDeclinationAndEoT M (utcMidnightJc y m d)).declination)) -
          M.tan (deg2rad M latitude) *
            M.tan (deg2rad M
              (solarDeclinationAndEoT M (utcMidnightJc y m d)).declination) < -1 →
        sunriseSunset M latitude longitude dateString tzOffsetMinutes options =
          ⟨none, none,
            some (720 - 4 * longitude -
              (solarDeclinationAndEoT M (utcMidnightJc y m d)).equationOfTime +
                tzOffsetMinutes),
            some 1440, .polarDay⟩) := by
  have hg := sunriseSunset_eq_givenJc M latitude longitude tzOffsetMinutes
    options dateString y m d h
  refine ⟨?_, ?_, ?_⟩
  · rw [hg, givenJc_solarNoon]
  · intro hc
    rw [hg]
    exact givenJc_polarNight M latitude longitude tzOffsetMinutes options _ hc
  · intro hc
    rw [hg]
    exact givenJc_polarDay M latitude longitude tzOffsetMinutes options _ hc

/-- Witness for C2 at a concrete parseable date. -/
theorem C2_witness :
    parseDate "2024-06-20" = some (2024, 6, 20) ∧
      (sunriseSunset ratMath 80 10 "2024-06-20" 60 none).solarNoonMinutes =
        some (720 - 4 * 10 -
          (solarDeclinationAndEoT ratMath
            (utcMidnightJc 2024 6 20)).equationOfTime + 60) :=
  ⟨by decide, (C2_solar_noon_and_polar_branches ratMath 80 10 60 none
    "2024-06-20" 2024 6 20 (by decide)).1⟩

/-- A digit character's value lies in `[0, 9]`. -/
theorem digitValC_bounds (c : Char) (h : isDigitC c = true) :
    0 ≤ digitValC c ∧ digitValC c ≤ 9 := by
  simp only [isDigitC, Bool.and_eq_true, decide_eq_true_eq] at h
  simp only [digitValC]
  omega

/-- `twoDigits` only returns values in `[0, 99]`. -/
theorem twoDigits_bounds (l : List Char) (m : ℤ) (h : twoDigits l = some m) :
    0 ≤ m ∧ m ≤ 99 := by
  match l with
  | [] => simp [twoDigits] at h
  | [c1] => simp [twoDigits] at h
  | [c1, c2] =>
    simp only [twoDigits] at h
    split_ifs at h with hd
    · simp only [Option.some.injEq] at h
      simp only [Bool.and_eq_true] at hd
      have h1 := digitValC_bounds c1 hd.1
      have h2 := digitValC_bounds c2 hd.2
      simp only [digitsVal, List.foldl] at h
      omega
  | c1 :: c2 :: c3 :: t => simp [twoDigits] at h

/-- `tzMinutesPart` only returns values in `[0, 99]`. -/
theorem tzMinutesPart_bounds (l : List Char) (m : ℤ)
    (h : tzMinutesPart l = some m) : 0 ≤ m ∧ m ≤ 99 := by
  match l with
  | [] =>
    simp only [tzMinutesPart, Option.some.injEq] at h
    omega
  | c :: rest =>
    simp only [tzMinutesPart] at h
    split_ifs at h
    · exact twoDigits_bounds rest m h
    · exact twoDigits_bounds (c :: rest) m h

/-- `tzHoursMinutes` only returns hour and minute field values in
`[0, 99]`. -/
theorem tzHoursMinutes_bounds (l : List Char) (hrs mins : ℤ)
    (h : tzHoursMinutes l = some (hrs, mins)) :
    0 ≤ hrs ∧ hrs ≤ 99 ∧ 0 ≤ mins ∧ mins ≤ 99 := by
  match l with
  | [] => simp [tzHoursMinutes] at h
  | [c1] =>
    simp only [tzHoursMinutes] at h
    split_ifs at h with hd1
    have hb1 := digitValC_bounds c1 hd1
    simp only [Option.some.injEq, Prod.mk.injEq] at h
    omega
  | c1 :: c2 :: rest2 =>
    simp only [tzHoursMinutes] at h
    split_ifs at h with hd1 hd2
    · -- two-digit hours attempt
      have hb1 := digitValC_bounds c1 hd1
      have hb2 := digitValC_bounds c2 hd2
      cases h2 : tzMinutesPart rest2 with
      | some m2 =>
        rw [h2] at h
        simp only [Option.some.injEq, Prod.mk.injEq] at h
        have hm := tzMinutesPart_bounds rest2 m2 h2
        simp only [digitsVal, List.foldl] at h
        omega
      | none =>
        rw [h2] at h
        cases h3 : tzMinutesPart (c2 :: rest2) with
        | some m3 =>
          rw [h3] at h
          simp only [Option.some.injEq, Prod.mk.injEq] at h
          have hm := tzMinutesPart_bounds (c2 :: rest2) m3 h3
          omega
        | none => rw [h3] at h; simp at h
    · -- one-digit hours
      have hb1 := digitValC_bounds c1 hd1
      cases h3 : tzMinutesPart (c2 :: rest2) with
      | some m3 =>
        rw [h3] at h
        simp only [Option.some.injEq, Prod.mk.injEq] at h
        have hm := tzMinutesPart_bounds (c2 :: rest2) m3 h3
        omega
      | none => rw [h3] at h; simp at h

/-- `tzMatch` returns a sign in `{+1, −1}` and hour/minute fields in
`[0, 99]`. -/
theorem tzMatch_shape (cs : List Char) (sign hrs mins : ℤ)
    (h : tzMatch cs = some (sign, hrs, mins)) :
    (sign = 1 ∨ sign = -1) ∧ 0 ≤ hrs ∧ hrs ≤ 99 ∧ 0 ≤ mins ∧ mins ≤ 99 := by
  match cs with
  | [] => simp [tzMatch] at h
  | c :: rest =>
    simp only [tzMatch] at h
    split_ifs at h
    · rcases h4 : tzHoursMinutes rest with _ | ⟨h5, m5⟩ <;> rw [h4] at h
      · exact Option.noConfusion h
      · simp only [Option.map_some', Option.some.injEq, Prod.mk.injEq] at h
        obtain ⟨hs, hh, hm⟩ := h
        have hb := tzHoursMinutes_bounds rest h5 m5 h4
        exact ⟨Or.inl hs.symm, by omega⟩
    · rcases h4 : tzHoursMinutes rest with _ | ⟨h5, m5⟩ <;> rw [h4] at h
      · exact Option.noConfusion h
      · simp only [Option.map_some', Option.some.injEq, Prod.mk.injEq] at h
        obtain ⟨hs, hh, hm⟩ := h
        have hb := tzHoursMinutes_bounds rest h5 m5 h4
        exact ⟨Or.inr hs.symm, by omega⟩
    · rcases h4 : tzHoursMinutes (c :: rest) with _ | ⟨h5, m5⟩ <;> rw [h4] at h
      · exact Option.noConfusion h
      · simp only [Option.map_some', Option.some.injEq, Prod.mk.injEq] at h
        obtain ⟨hs, hh, hm⟩ := h
        have hb := tzHoursMinutes_bounds (c :: rest) h5 m5 h4
        exact ⟨Or.inl hs.symm, by omega⟩

/-- C5 counterexample: `"+14:30"` parses as valid with 870 minutes, which
lies outside `[−840, 840]`, so the claimed bound fails. -/
theorem C5_counterexample :
    parseTimezoneOffset "+14:30" = ⟨870, true⟩ ∧
      ¬(-840 ≤ (parseTimezoneOffset "+14:30").minutes ∧
        (parseTimezoneOffset "+14:30").minutes ≤ 840) := by decide

/-- C5 (amended): every accepted offset lies in `[−899, 899]` (14 hours 59
minutes, the extreme the `hours > 14 / minutes ≥ 60` filter admits), and
any input whose offset text matches the pattern with `hours > 14` or
`minutes ≥ 60` is rejected with `(0, false)`. -/
theorem C5_offset_bounds (s : String) :
    ((parseTimezoneOffset s).isValid = true →
      -899 ≤ (parseTimezoneOffset s).minutes ∧
        (parseTimezoneOffset s).minutes ≤ 899) ∧
      (∀ sign hrs mins : ℤ,
        tzMatch (tzStripPrefixes (tzRaw s)) = some (sign, hrs, mins) →
        hrs > 14 ∨ mins ≥ 60 → parseTimezoneOffset s = ⟨0, false⟩) := by
  constructor
  · intro hv
    simp only [parseTimezoneOffset] at hv ⊢
    split_ifs at hv ⊢ with h1 h2
    · norm_num
    · rcases hm : tzMatch (tzStripPrefixes (tzRaw s)) with
          _ | ⟨sign, hrs, mins⟩
      · simp only [hm] at hv
        exact absurd hv (by simp)
      · obtain ⟨hsign, hb⟩ := tzMatch_shape _ sign hrs mins hm
        simp only [hm] at hv ⊢
        split_ifs at hv ⊢ with h3
        simp only [not_or, not_lt, not_le] at h3
        rcases hsign with rfl | rfl <;> constructor <;> dsimp only <;> omega
  · intro sign hrs mins hmatch hbad
    simp only [parseTimezoneOffset]
    split_ifs with h1 h2
    · rfl
    · rcases h2 with hz | hz | hz <;> rw [hz] at hmatch
      · have hz2 : tzMatch (tzStripPrefixes ['Z']) = none := by decide
        rw [hz2] at hmatch
        exact Option.noConfusion hmatch
      · have hz2 : tzMatch (tzStripPrefixes ['U', 'T', 'C']) = none := by decide
        rw [hz2] at hmatch
        exact Option.noConfusion hmatch
      · have hz2 : tzMatch (tzStripPrefixes ['G', 'M', 'T']) = none := by decide
        rw [hz2] at hmatch
        exact Option.noConfusion hmatch
    · simp only [hmatch]
      rw [if_pos hbad]

/-- Witness for C5: `"+14:59"` is accepted with 899 minutes (inside the
amended bound), and `"+15:00"` (hours > 14) is rejected with `(0, false)`. -/
theorem C5_witness :
    (-899 ≤ (parseTimezoneOffset "+14:59").minutes ∧
        (parseTimezoneOffset "+14:59").minutes ≤ 899) ∧
      parseTimezoneOffset "+15:00" = ⟨0, false⟩ :=
  ⟨(C5_offset_bounds "+14:59").1 (by decide),
    (C5_offset_bounds "+15:00").2 1 15 0 (by decide) (by decide)⟩

/-- C10: `parseTimezoneOffset` accepts a leading `"UTC"`/`"GMT"` prefix
before a numeric offset and colon-free offsets:
`parseTimezoneOffset("UTC+8") = (480, true)` and
`parseTimezoneOffset("+0800") = (480, true)`, and the same values hold for
the `"GMT"` prefix. -/
theorem C10_prefix_and_compact_forms :
    parseTimezoneOffset "UTC+8" = ⟨480, true⟩ ∧
      parseTimezoneOffset "+0800" = ⟨480, true⟩ ∧
      parseTimezoneOffset "GMT+8" = ⟨480, true⟩ := by decide

/-- The truncation-based `normalizeDegrees` agrees with the mathematical
floor-modulus `a − 360·⌊a/360⌋`. -/
theorem normalizeDegrees_eq [FloorRing α] (a : α) :
    normalizeDegrees a = a - 360 * (⌊a / 360⌋ : α) := by
  have h360 : (0 : α) < 360 := by norm_num
  have hfr0 : (0 : α) ≤ a / 360 - ⌊a / 360⌋ := sub_nonneg.mpr (Int.floor_le _)
  have hfr1 : a / 360 - ⌊a / 360⌋ < 1 := by
    have := Int.lt_floor_add_one (a / 360)
    linarith
  have key : a - 360 * (⌊a / 360⌋ : α) = 360 * (a / 360 - ⌊a / 360⌋) := by
    field_simp
  simp only [normalizeDegrees, jsMod, jsTrunc]
  by_cases hneg : a / 360 < 0
  · rw [if_pos hneg]
    by_cases hint : (⌊a / 360⌋ : α) = a / 360
    · have hceil : ⌈a / 360⌉ = ⌊a / 360⌋ := by
        rw [← hint, Int.ceil_intCast, Int.floor_intCast]
      rw [hceil]
      have hz : a - 360 * (⌊a / 360⌋ : α) = 0 := by
        rw [key, hint]
        simp
      rw [hz]
      norm_num
    · have hlt : (⌊a / 360⌋ : α) < a / 360 := (Int.floor_le _).lt_of_ne hint
      have hceil : ⌈a / 360⌉ = ⌊a / 360⌋ + 1 := by
        have h1 : ⌈a / 360⌉ ≤ ⌊a / 360⌋ + 1 := by
          apply Int.ceil_le.mpr
          push_cast
          exact (Int.lt_floor_add_one _).le
        have h2 : ⌊a / 360⌋ < ⌈a / 360⌉ := Int.lt_ceil.mpr hlt
        omega
      rw [hceil]
      push_cast
      have hn : a - 360 * ((⌊a / 360⌋ : α) + 1) < 0 := by linarith [key]
      rw [if_pos hn]
      ring
  · rw [if_neg hneg]
    have hn : ¬(a - 360 * (⌊a / 360⌋ : α) < 0) := by
      push_neg
      rw [key]
      exact mul_nonneg (by norm_num) hfr0
    rw [if_neg hn]

/-- `normalizeDegrees` is nonnegative. -/
theorem normalizeDegrees_nonneg [FloorRing α] (a : α) :
    0 ≤ normalizeDegrees a := by
  rw [normalizeDegrees_eq]
  have h360 : (0 : α) < 360 := by norm_num
  have h := Int.floor_le (a / 360)
  have h2 : (⌊a / 360⌋ : α) * 360 ≤ a := (le_div_iff₀ h360).mp h
  linarith

/-- `normalizeDegrees` is below 360. -/
theorem normalizeDegrees_lt [FloorRing α] (a : α) :
    normalizeDegrees a < 360 := by
  rw [normalizeDegrees_eq]
  have h360 : (0 : α) < 360 := by norm_num
  have h := Int.lt_floor_add_one (a / 360)
  have h2 : a < ((⌊a / 360⌋ : α) + 1) * 360 := (div_lt_iff₀ h360).mp h
  linarith

/-- `normalizeDegrees` has period 360. -/
theorem normalizeDegrees_period [FloorRing α] (a : α) :
    normalizeDegrees (a + 360) = normalizeDegrees a := by
  rw [normalizeDegrees_eq, normalizeDegrees_eq]
  have hdiv : (a + 360) / 360 = a / 360 + 1 := by
    field_simp
  rw [hdiv, Int.floor_add_one]
  push_cast
  ring

/-- C8: for every real number `a`, `normalizeDegrees a` lies in `[0, 360)`
and `normalizeDegrees a = normalizeDegrees (a + 360)`; in particular
`normalizeDegrees (−10) = 350`. -/
theorem C8_normalize_degrees :
    (∀ a : ℝ, 0 ≤ normalizeDegrees a ∧ normalizeDegrees a < 360 ∧
      normalizeDegrees (a + 360) = normalizeDegrees a) ∧
      normalizeDegrees (-10 : ℝ) = 350 := by
  refine ⟨fun a => ⟨normalizeDegrees_nonneg a, normalizeDegrees_lt a,
    normalizeDegrees_period a⟩, ?_⟩
  rw [normalizeDegrees_eq]
  have hf : ⌊(-10 : ℝ) / 360⌋ = -1 := by
    rw [Int.floor_eq_iff]
    norm_num
  rw [hf]
  norm_num

/-- JavaScript `Math.atan2(y, x)` over the reals (IEEE signed zeros are
not modelled: `atan2(0, 0) = 0` here, covering the `+0` case). -/
noncomputable def realAtan2 (y x : ℝ) : ℝ :=
  if 0 < x then Real.arctan (y / x)
  else if x < 0 then
    (if 0 ≤ y then Real.arctan (y / x) + Real.pi
      else Real.arctan (y / x) - Real.pi)
  else
    (if 0 < y then Real.pi / 2 else if y < 0 then -(Real.pi / 2) else 0)

/-- The real interpretation of the JavaScript `Math` primitives. -/
noncomputable def realMath : JSMath ℝ :=
  ⟨Real.pi, Real.sin, Real.cos, Real.tan, Real.arcsin, Real.arccos, realAtan2⟩

/-- `clamp` keeps its output inside the (ordered) clamp interval. -/
theorem clamp_mem (v lo hi : α) (h : lo ≤ hi) :
    lo ≤ clamp v lo hi ∧ clamp v lo hi ≤ hi :=
  ⟨le_min h (le_max_left lo v), min_le_left hi _⟩

/-- `90 − rad2deg (arccos c)` lies in `[−90, 90]` for any argument `c`. -/
theorem altitude_of_arccos_bounds (c : ℝ) :
    -90 ≤ 90 - Real.arccos c * (180 / Real.pi) ∧
      90 - Real.arccos c * (180 / Real.pi) ≤ 90 := by
  have hpi := Real.pi_pos
  have h1 := Real.arccos_nonneg c
  have h2 := Real.arccos_le_pi c
  have hq : (0 : ℝ) < 180 / Real.pi := by positivity
  constructor
  · have h3 : Real.arccos c * (180 / Real.pi) ≤ Real.pi * (180 / Real.pi) :=
      mul_le_mul_of_nonneg_right h2 hq.le
    have h4 : Real.pi * (180 / Real.pi) = 180 := by
      field_simp
    linarith
  · have h5 : 0 ≤ Real.arccos c * (180 / Real.pi) := mul_nonneg h1 hq.le
    linarith

/-- C3: for every finite latitude, longitude and instant, `solarPosition`
under the real `Math` interpretation is a total, well-defined function
whose altitude lies in `[−90, 90]` and whose azimuth lies in `[0, 360)`;
moreover `clamp · (−1) 1` always produces a value in `[−1, 1]`, so `acos`
never receives an out-of-domain argument. -/
theorem C3_solar_position_ranges (latitude longitude : ℝ) (t : ℤ) :
    -90 ≤ (solarPosition realMath latitude longitude t).altitude ∧
      (solarPosition realMath latitude longitude t).altitude ≤ 90 ∧
      0 ≤ (solarPosition realMath latitude longitude t).azimuth ∧
      (solarPosition realMath latitude longitude t).azimuth < 360 ∧
      (∀ v : ℝ, -1 ≤ clamp v (-1) 1 ∧ clamp v (-1) 1 ≤ 1) := by
  have hclamp : ∀ v : ℝ, -1 ≤ clamp v (-1) 1 ∧ clamp v (-1) 1 ≤ 1 :=
    fun v => clamp_mem v (-1) 1 (by norm_num)
  simp only [solarPosition, realMath, rad2deg]
  exact ⟨(altitude_of_arccos_bounds _).1, (altitude_of_arccos_bounds _).2,
    normalizeDegrees_nonneg _, normalizeDegrees_lt _, hclamp⟩

/-- The in-range test of the `findWindows` loop, as a Boolean. -/
def inRangeB (minAlt maxAlt : β) (p : SamplePoint β) : Bool :=
  decide (minAlt ≤ p.altitude ∧ p.altitude ≤ maxAlt)

/-- Number of maximal `true` runs of a Boolean list, with a flag telling
whether a run is already open on the left. -/
def gcount : Bool → List Bool → ℕ
  | b, [] => if b then 1 else 0
  | _, true :: r => gcount true r
  | b, false :: r => (if b then 1 else 0) + gcount false r

/-- A sample series whose altitudes form a strictly ascending prefix
followed by a strictly descending suffix (a rising-then-falling daily
curve). -/
def RisingThenFalling (s : List (SamplePoint β)) : Prop :=
  ∃ l1 l2, s = l1 ++ l2 ∧
    List.Pairwise (· < ·) (l1.map SamplePoint.altitude) ∧
    List.Pairwise (· > ·) (l2.map SamplePoint.altitude)

/-- The number of windows emitted by the loop equals the number of `true`
runs of the in-range Boolean sequence (counting the pending open run). -/
theorem findWindowsAux_length (lo hi : β) (xs : List (SamplePoint β)) :
    ∀ (st lm : Option β),
      (findWindowsAux lo hi st lm xs).length =
        gcount st.isSome (xs.map (inRangeB lo hi)) := by
  induction xs with
  | nil =>
    intro st lm
    cases st <;> simp [findWindowsAux, gcount]
  | cons p rest ih =>
    intro st lm
    by_cases hin : lo ≤ p.altitude ∧ p.altitude ≤ hi
    · have hb : inRangeB lo hi p = true := decide_eq_true hin
      simp only [findWindowsAux, if_pos hin, List.map_cons, hb, ih, gcount,
        Option.isSome_some]
    · have hb : inRangeB lo hi p = false := decide_eq_false hin
      cases st with
      | none =>
        simp only [findWindowsAux, if_neg hin, List.map_cons, hb, ih, gcount,
          Option.isSome_none]
        simp
      | some a =>
        simp only [findWindowsAux, if_neg hin, List.map_cons, hb, gcount,
          List.length_cons, ih, Option.isSome_some, Option.isSome_none]
        simp [Nat.add_comm]

/-- Prepending `false`s does not change the closed-state run count. -/
theorem gcount_false_falses (n : ℕ) (r : List Bool) :
    gcount false (List.replicate n false ++ r) = gcount false r := by
  induction n with
  | zero => simp
  | succ k ih => simpa [List.replicate_succ, gcount] using ih

/-- Prepending `true`s does not change the open-state run count. -/
theorem gcount_true_trues (n : ℕ) (r : List Bool) :
    gcount true (List.replicate n true ++ r) = gcount true r := by
  induction n with
  | zero => simp
  | succ k ih => simpa [List.replicate_succ, gcount] using ih

/-- A nonempty block of `true`s opens a run. -/
theorem gcount_false_trues (n : ℕ) (r : List Bool) (hn : n ≠ 0) :
    gcount false (List.replicate n true ++ r) = gcount true r := by
  cases n with
  | zero => exact absurd rfl hn
  | succ k =>
    simp only [List.replicate_succ, List.cons_append, gcount]
    exact gcount_true_trues k r

/-- A nonempty block of `false`s closes the open run. -/
theorem gcount_true_falses (n : ℕ) (r : List Bool) (hn : n ≠ 0) :
    gcount true (List.replicate n false ++ r) = 1 + gcount false r := by
  cases n with
  | zero => exact absurd rfl hn
  | succ k =>
    simp only [List.replicate_succ, List.cons_append, gcount, if_pos,
      List.append_eq]
    have := gcount_false_falses k r
    omega

/-- From an open state, a block of `false`s yields exactly one run. -/
theorem gcount_true_falses_only (e : ℕ) :
    gcount true (List.replicate e false) = 1 := by
  cases e with
  | zero => simp [gcount]
  | succ k =>
    rw [← List.append_nil (List.replicate (k + 1) false),
      gcount_true_falses (k + 1) [] (by omega)]
    simp [gcount]

/-- From an open run, a trues-then-falses tail contributes exactly one
run. -/
theorem gcount_true_TF (d e : ℕ) :
    gcount true (List.replicate d true ++ List.replicate e false) = 1 := by
  rw [gcount_true_trues]
  exact gcount_true_falses_only e

/-- From a closed state, a trues-then-falses tail contributes at most one
run. -/
theorem gcount_false_TF (d e : ℕ) :
    gcount false (List.replicate d true ++ List.replicate e false) ≤ 1 := by
  cases d with
  | zero =>
    simp only [List.replicate_zero, List.nil_append]
    rw [← List.append_nil (List.replicate e false), gcount_false_falses]
    simp [gcount]
  | succ k =>
    rw [gcount_false_trues (k + 1) _ (by omega), gcount_true_falses_only e]

/-- A Boolean sequence of shape `F^a T^b F^c T^d F^e` has at most two
`true` runs. -/
theorem gcount_shape_le_two (a b c d e : ℕ) :
    gcount false (List.replicate a false ++ (List.replicate b true ++
      (List.replicate c false ++ (List.replicate d true ++
        List.replicate e false)))) ≤ 2 := by
  rw [gcount_false_falses]
  cases b with
  | zero =>
    simp only [List.replicate_zero, List.nil_append]
    rw [gcount_false_falses]
    exact le_trans (gcount_false_TF d e) (by omega)
  | succ k =>
    rw [gcount_false_trues (k + 1) _ (by omega)]
    cases c with
    | zero =>
      simp only [List.replicate_zero, List.nil_append]
      rw [gcount_true_TF d e]
      omega
    | succ j =>
      rw [gcount_true_falses (j + 1) _ (by omega)]
      have := gcount_false_TF d e
      omega

/-- Elements above the range all map to `false`. -/
theorem map_inB_all_above (lo hi : β) (l : List β) (h : ∀ b ∈ l, hi < b) :
    l.map (fun a => decide (lo ≤ a ∧ a ≤ hi)) =
      List.replicate l.length false := by
  induction l with
  | nil => simp
  | cons b r ih =>
    have hb : decide (lo ≤ b ∧ b ≤ hi) = false :=
      decide_eq_false (fun hc =>
        absurd hc.2 (not_le.mpr (h b (List.mem_cons_self b r))))
    simp only [List.map_cons, hb, List.length_cons, List.replicate_succ]
    rw [ih (fun c hc => h c (List.mem_cons_of_mem b hc))]

/-- A strictly ascending list whose elements are all at least `lo` maps to
a block of `true`s followed by a block of `false`s. -/
theorem map_inB_all_ge (lo hi : β) (l : List β)
    (hs : List.Pairwise (· < ·) l) (hge : ∀ b ∈ l, lo ≤ b) :
    ∃ y z, l.map (fun a => decide (lo ≤ a ∧ a ≤ hi)) =
      List.replicate y true ++ List.replicate z false := by
  induction l with
  | nil => exact ⟨0, 0, by simp⟩
  | cons b r ih =>
    obtain ⟨hhead, htail⟩ := List.pairwise_cons.mp hs
    by_cases hbh : b ≤ hi
    · obtain ⟨y, z, hyz⟩ := ih htail
        (fun c hc => hge c (List.mem_cons_of_mem b hc))
      refine ⟨y + 1, z, ?_⟩
      have hb : decide (lo ≤ b ∧ b ≤ hi) = true :=
        decide_eq_true ⟨hge b (List.mem_cons_self b r), hbh⟩
      simp only [List.map_cons, hb, hyz, List.replicate_succ, List.cons_append]
    · refine ⟨0, r.length + 1, ?_⟩
      have hb : decide (lo ≤ b ∧ b ≤ hi) = false :=
        decide_eq_false (fun hc => absurd hc.2 hbh)
      have habove : ∀ c ∈ r, hi < c :=
        fun c hc => lt_trans (lt_of_not_le hbh) (hhead c hc)
      simp only [List.map_cons, hb, map_inB_all_above lo hi r habove,
        List.replicate_zero, List.nil_append, List.replicate_succ]

/-- A strictly ascending list maps to a `false`/`true`/`false` shape. -/
theorem map_inB_ascending (lo hi : β) (l : List β)
    (hs : List.Pairwise (· < ·) l) :
    ∃ x y z, l.map (fun a => decide (lo ≤ a ∧ a ≤ hi)) =
      List.replicate x false ++ List.replicate y true ++
        List.replicate z false := by
  induction l with
  | nil => exact ⟨0, 0, 0, by simp⟩
  | cons b r ih =>
    obtain ⟨hhead, htail⟩ := List.pairwise_cons.mp hs
    by_cases hblo : lo ≤ b
    · have hge : ∀ c ∈ b :: r, lo ≤ c := by
        intro c hc
        rcases List.mem_cons.mp hc with rfl | hc'
        · exact hblo
        · exact le_of_lt (lt_of_le_of_lt hblo (hhead c hc'))
      obtain ⟨y, z, h⟩ := map_inB_all_ge lo hi (b :: r) hs hge
      exact ⟨0, y, z, by simpa using h⟩
    · obtain ⟨x, y, z, h⟩ := ih htail
      refine ⟨x + 1, y, z, ?_⟩
      have hb : decide (lo ≤ b ∧ b ≤ hi) = false :=
        decide_eq_false (fun hc => absurd hc.1 hblo)
      simp only [List.map_cons, hb, h, List.replicate_succ, List.cons_append]

/-- The `false`/`true`/`false` shape family is closed under reversal. -/
theorem shape_reverse (x y z : ℕ) :
    (List.replicate x false ++ List.replicate y true ++
      List.replicate z false).reverse =
      List.replicate z false ++ List.replicate y true ++
        List.replicate x false := by
  simp [List.reverse_append, List.append_assoc]

/-- A strictly descending list maps to a `false`/`true`/`false` shape. -/
theorem map_inB_descending (lo hi : β) (l : List β)
    (hs : List.Pairwise (· > ·) l) :
    ∃ x y z, l.map (fun a => decide (lo ≤ a ∧ a ≤ hi)) =
      List.replicate x false ++ List.replicate y true ++
        List.replicate z false := by
  have hrev : List.Pairwise (· < ·) l.reverse := List.pairwise_reverse.mpr hs
  obtain ⟨x, y, z, h⟩ := map_inB_ascending lo hi l.reverse hrev
  refine ⟨z, y, x, ?_⟩
  have hmr : l.map (fun a => decide (lo ≤ a ∧ a ≤ hi)) =
      (l.reverse.map (fun a => decide (lo ≤ a ∧ a ≤ hi))).reverse := by
    simp [List.map_reverse]
  rw [hmr, h, shape_reverse]

/-- On a rising-then-falling series, the in-range Boolean sequence has the
five-block shape `F^a T^b F^c T^d F^e`. -/
theorem map_inRangeB_shape (lo hi : β) (s : List (SamplePoint β))
    (h : RisingThenFalling s) :
    ∃ a b c d e, s.map (inRangeB lo hi) =
      List.replicate a false ++ (List.replicate b true ++
        (List.replicate c false ++ (List.replicate d true ++
          List.replicate e false))) := by
  obtain ⟨l1, l2, rfl, h1, h2⟩ := h
  have e1 : (l1 ++ l2).map (inRangeB lo hi) =
      (l1.map SamplePoint.altitude).map
          (fun a => decide (lo ≤ a ∧ a ≤ hi)) ++
        (l2.map SamplePoint.altitude).map
          (fun a => decide (lo ≤ a ∧ a ≤ hi)) := by
    rw [List.map_append, List.map_map, List.map_map]
    rfl
  obtain ⟨a, b, c, hab⟩ := map_inB_ascending lo hi _ h1
  obtain ⟨x, y, z, hxy⟩ := map_inB_descending lo hi _ h2
  refine ⟨a, b, c + x, y, z, ?_⟩
  rw [e1, hab, hxy, List.replicate_add]
  simp only [List.append_assoc]

/-- On a rising-then-falling series, `findWindows` returns at most two
windows. -/
theorem findWindows_le_two (lo hi : β) (s : List (SamplePoint β))
    (h : RisingThenFalling s) : (findWindows s lo hi).length ≤ 2 := by
  rw [findWindows, findWindowsAux_length]
  obtain ⟨a, b, c, d, e, hs⟩ := map_inRangeB_shape lo hi s h
  rw [hs]
  simpa using gcount_shape_le_two a b c d e

/-- Loop invariant of `findWindows`: on a series with strictly increasing
minutes, every emitted window has `start ≤ stop` with both endpoints
`Good` (an arbitrary predicate holding at the minutes of the in-range
samples and at the accumulator contents); window starts come from in-range
samples (or the open accumulator); windows are pairwise ordered with gaps;
and every sample whose minute falls inside an emitted window is in-range. -/
theorem findWindowsAux_spec (lo hi : β) (Good : β → Prop) :
    ∀ (xs : List (SamplePoint β)) (st lm : Option β),
      List.Pairwise (· < ·) (xs.map SamplePoint.minute) →
      (∀ p ∈ xs, lo ≤ p.altitude ∧ p.altitude ≤ hi → Good p.minute) →
      (∀ a, st = some a → Good a) →
      (∀ b, lm = some b → Good b) →
      (∀ a, st = some a → ∃ b, lm = some b ∧ a ≤ b) →
      (∀ b, lm = some b → ∀ p ∈ xs, b < p.minute) →
      (∀ w ∈ findWindowsAux lo hi st lm xs,
          w.start ≤ w.stop ∧ Good w.start ∧ Good w.stop) ∧
        (∀ w ∈ findWindowsAux lo hi st lm xs,
          (∃ p ∈ xs, (lo ≤ p.altitude ∧ p.altitude ≤ hi) ∧
            p.minute = w.start) ∨ st = some w.start) ∧
        List.Pairwise (fun u v : SolarWindow β => u.stop < v.start)
          (findWindowsAux lo hi st lm xs) ∧
        (∀ w ∈ findWindowsAux lo hi st lm xs, ∀ p ∈ xs,
          w.start ≤ p.minute → p.minute ≤ w.stop →
            lo ≤ p.altitude ∧ p.altitude ≤ hi) := by
  intro xs
  induction xs with
  | nil =>
    intro st lm hsort hgood hst hlm hstlm hlmlt
    cases st with
    | none =>
      simp [findWindowsAux]
    | some a =>
      obtain ⟨b, hb, hab⟩ := hstlm a rfl
      subst hb
      simp only [findWindowsAux, Option.getD_some]
      refine ⟨?_, ?_, ?_, ?_⟩
      · intro w hw
        simp only [List.mem_singleton] at hw
        subst hw
        exact ⟨hab, hst a rfl, hlm b rfl⟩
      · intro w hw
        simp only [List.mem_singleton] at hw
        subst hw
        exact Or.inr rfl
      · simp
      · intro w hw p hp
        simp at hp
  | cons p rest ih =>
    intro st lm hsort hgood hst hlm hstlm hlmlt
    obtain ⟨hhead, hsort'⟩ := List.pairwise_cons.mp hsort
    have hheadlt : ∀ q ∈ rest, p.minute < q.minute :=
      fun q hq => hhead q.minute (List.mem_map_of_mem SamplePoint.minute hq)
    have hgood' : ∀ q ∈ rest, lo ≤ q.altitude ∧ q.altitude ≤ hi →
        Good q.minute :=
      fun q hq => hgood q (List.mem_cons_of_mem p hq)
    by_cases hin : lo ≤ p.altitude ∧ p.altitude ≤ hi
    · -- the sample is in range: the loop extends (or opens) the run
      have heq : findWindowsAux lo hi st lm (p :: rest) =
          findWindowsAux lo hi (some (st.getD p.minute)) (some p.minute)
            rest := by
        simp only [findWindowsAux, if_pos hin]
      have hst' : ∀ a, some (st.getD p.minute) = some a → Good a := by
        intro a ha
        simp only [Option.some.injEq] at ha
        subst ha
        cases hst0 : st with
        | none => simpa using hgood p (List.mem_cons_self p rest) hin
        | some a0 =>
          simp only [hst0, Option.getD_some]
          exact hst a0 hst0
      have hlm' : ∀ b, some p.minute = some b → Good b := by
        intro b hb
        simp only [Option.some.injEq] at hb
        subst hb
        exact hgood p (List.mem_cons_self p rest) hin
      have hstlm' : ∀ a, some (st.getD p.minute) = some a →
          ∃ b, some p.minute = some b ∧ a ≤ b := by
        intro a ha
        simp only [Option.some.injEq] at ha
        subst ha
        refine ⟨p.minute, rfl, ?_⟩
        cases hst0 : st with
        | none => simp
        | some a0 =>
          simp only [hst0, Option.getD_some]
          obtain ⟨b, hb, hab⟩ := hstlm a0 hst0
          have := hlmlt b hb p (List.mem_cons_self p rest)
          exact le_of_lt (lt_of_le_of_lt hab this)
      have hlmlt' : ∀ b, some p.minute = some b →
          ∀ q ∈ rest, b < q.minute := by
        intro b hb
        simp only [Option.some.injEq] at hb
        subst hb
        exact hheadlt
      obtain ⟨hA, hB, hC, hD⟩ := ih (some (st.getD p.minute)) (some p.minute)
        hsort' hgood' hst' hlm' hstlm' hlmlt'
      rw [heq]
      refine ⟨hA, ?_, hC, ?_⟩
      · intro w hw
        rcases hB w hw with ⟨q, hq, hqr, hqm⟩ | hsome
        · exact Or.inl ⟨q, List.mem_cons_of_mem p hq, hqr, hqm⟩
        · simp only [Option.some.injEq] at hsome
          cases st with
          | none =>
            left
            refine ⟨p, List.mem_cons_self p rest, hin, ?_⟩
            simpa using hsome
          | some a0 =>
            right
            simp only [Option.getD_some] at hsome
            rw [hsome]
      · intro w hw q hq h1 h2
        rcases List.mem_cons.mp hq with rfl | hq'
        · exact hin
        · exact hD w hw q hq' h1 h2
    · -- the sample is out of range: the open run (if any) is flushed
      cases hst0 : st with
      | none =>
        have heq : findWindowsAux lo hi none lm (p :: rest) =
            findWindowsAux lo hi none lm rest := by
          simp only [findWindowsAux, if_neg hin]
        have hlmlt' : ∀ b, lm = some b → ∀ q ∈ rest, b < q.minute :=
          fun b hb q hq => hlmlt b hb q (List.mem_cons_of_mem p hq)
        obtain ⟨hA, hB, hC, hD⟩ := ih none lm hsort' hgood' (by simp) hlm
          (by simp) hlmlt'
        rw [heq]
        refine ⟨hA, ?_, hC, ?_⟩
        · intro w hw
          rcases hB w hw with ⟨q, hq, hqr, hqm⟩ | hsome
          · exact Or.inl ⟨q, List.mem_cons_of_mem p hq, hqr, hqm⟩
          · exact Option.noConfusion hsome
        · intro w hw q hq h1 h2
          rcases List.mem_cons.mp hq with rfl | hq'
          · rcases hB w hw with ⟨q', hq', hqr', hqm'⟩ | hsome
            · exact absurd h1 (not_le.mpr (hqm' ▸ hheadlt q' hq'))
            · exact Option.noConfusion hsome
          · exact hD w hw q hq' h1 h2
      | some a =>
        obtain ⟨b, hb, hab⟩ := hstlm a hst0
        subst hb
        have heq : findWindowsAux lo hi (some a) (some b) (p :: rest) =
            ⟨a, b⟩ :: findWindowsAux lo hi none none rest := by
          simp only [findWindowsAux, if_neg hin, Option.getD_some]
        have hblt : ∀ q ∈ p :: rest, b < q.minute := hlmlt b rfl
        obtain ⟨hA, hB, hC, hD⟩ := ih none none hsort' hgood' (by simp)
          (by simp) (by simp) (by simp)
        rw [heq]
        have hstartmem : ∀ w ∈ findWindowsAux lo hi none none rest,
            ∃ q ∈ rest, (lo ≤ q.altitude ∧ q.altitude ≤ hi) ∧
              q.minute = w.start := by
          intro w hw
          rcases hB w hw with hmem | hsome
          · exact hmem
          · exact Option.noConfusion hsome
        refine ⟨?_, ?_, ?_, ?_⟩
        · intro w hw
          rcases List.mem_cons.mp hw with rfl | hw'
          · exact ⟨hab, hst a hst0, hlm b rfl⟩
          · exact hA w hw'
        · intro w hw
          rcases List.mem_cons.mp hw with rfl | hw'
          · exact Or.inr rfl
          · obtain ⟨q, hq, hqr, hqm⟩ := hstartmem w hw'
            exact Or.inl ⟨q, List.mem_cons_of_mem p hq, hqr, hqm⟩
        · rw [List.pairwise_cons]
          refine ⟨?_, hC⟩
          intro w hw
          obtain ⟨q, hq, hqr, hqm⟩ := hstartmem w hw
          rw [← hqm]
          exact hblt q (List.mem_cons_of_mem p hq)
        · intro w hw q hq h1 h2
          rcases List.mem_cons.mp hw with rfl | hw'
          · exact absurd h2 (not_le.mpr (hblt q hq))
          · rcases List.mem_cons.mp hq with rfl | hq'
            · obtain ⟨q', hq', hqr', hqm'⟩ := hstartmem w hw'
              exact absurd h1 (not_le.mpr (hqm' ▸ hheadlt q' hq'))
            · exact hD w hw' q hq' h1 h2

/-- C9: on input sorted strictly increasing by minute, every window
returned by `findWindows` has `start ≤ stop`, both endpoints are minutes
of samples whose altitude lies in `[minAlt, maxAlt]`, and the windows are
pairwise disjoint in increasing order (each window's end strictly precedes
the next window's start). -/
theorem C9_find_windows_invariants (series : List (SamplePoint β))
    (minAlt maxAlt : β)
    (hsort : List.Pairwise (· < ·) (series.map SamplePoint.minute)) :
    (∀ w ∈ findWindows series minAlt maxAlt,
        w.start ≤ w.stop ∧
          (∃ p ∈ series, p.minute = w.start ∧
            minAlt ≤ p.altitude ∧ p.altitude ≤ maxAlt) ∧
          (∃ p ∈ series, p.minute = w.stop ∧
            minAlt ≤ p.altitude ∧ p.altitude ≤ maxAlt)) ∧
      List.Pairwise (fun u v : SolarWindow β => u.stop < v.start)
        (findWindows series minAlt maxAlt) := by
  obtain ⟨hA, hB, hC, hD⟩ := findWindowsAux_spec minAlt maxAlt
    (fun m => ∃ p ∈ series, p.minute = m ∧
      minAlt ≤ p.altitude ∧ p.altitude ≤ maxAlt)
    series none none hsort (fun p hp hr => ⟨p, hp, rfl, hr⟩)
    (by simp) (by simp) (by simp) (by simp)
  exact ⟨fun w hw => ⟨(hA w hw).1, (hA w hw).2.1, (hA w hw).2.2⟩, hC⟩

/-- Witness for C9 at a concrete sorted series. -/
theorem C9_witness :
    List.Pairwise (· < ·)
        (([⟨0, 1⟩, ⟨5, 10⟩, ⟨9, 3⟩] : List (SamplePoint ℤ)).map
          SamplePoint.minute) ∧
      List.Pairwise (fun u v : SolarWindow ℤ => u.stop < v.start)
        (findWindows ([⟨0, 1⟩, ⟨5, 10⟩, ⟨9, 3⟩] : List (SamplePoint ℤ)) 0 6) :=
  ⟨by decide,
    (C9_find_windows_invariants [⟨0, 1⟩, ⟨5, 10⟩, ⟨9, 3⟩] 0 6 (by decide)).2⟩

/-- C4 counterexample: a sorted, rising-then-falling mid-latitude-style
series on which `computePhotoWindows` with the default ranges returns two
golden windows and two blue windows (one on each limb of the curve), not
exactly one of each: the in-range band is crossed once in the morning and
once in the evening. -/
theorem C4_counterexample :
    List.Pairwise (· < ·)
        (([⟨0, -10⟩, ⟨60, -3⟩, ⟨120, 3⟩, ⟨180, 10⟩, ⟨240, 3⟩, ⟨300, -3⟩,
          ⟨360, -10⟩] : List (SamplePoint ℤ)).map SamplePoint.minute) ∧
      RisingThenFalling
        ([⟨0, -10⟩, ⟨60, -3⟩, ⟨120, 3⟩, ⟨180, 10⟩, ⟨240, 3⟩, ⟨300, -3⟩,
          ⟨360, -10⟩] : List (SamplePoint ℤ)) ∧
      ¬((computePhotoWindows
            ([⟨0, -10⟩, ⟨60, -3⟩, ⟨120, 3⟩, ⟨180, 10⟩, ⟨240, 3⟩, ⟨300, -3⟩,
              ⟨360, -10⟩] : List (SamplePoint ℤ))
            GOLDEN_DEFAULT BLUE_DEFAULT).golden.length = 1 ∧
        (computePhotoWindows
            ([⟨0, -10⟩, ⟨60, -3⟩, ⟨120, 3⟩, ⟨180, 10⟩, ⟨240, 3⟩, ⟨300, -3⟩,
              ⟨360, -10⟩] : List (SamplePoint ℤ))
            GOLDEN_DEFAULT BLUE_DEFAULT).blue.length = 1) :=
  ⟨by decide,
    ⟨[⟨0, -10⟩, ⟨60, -3⟩, ⟨120, 3⟩, ⟨180, 10⟩],
      [⟨240, 3⟩, ⟨300, -3⟩, ⟨360, -10⟩], rfl, by decide, by decide⟩,
    by decide⟩

/-- C4 (amended): on a series sorted by minute whose altitudes rise to a
single maximum and then fall, `computePhotoWindows` with the default
golden `[0, 6]` and blue `[−6, 0]` ranges returns at most two golden and
at most two blue windows (one per limb of the curve), each a contiguous
sub-range of the sampled minutes: both endpoints are sampled minutes and
every sample whose minute lies inside the window is within the range. -/
theorem C4_at_most_two_windows (s : List (SamplePoint γ))
    (hsort : List.Pairwise (· < ·) (s.map SamplePoint.minute))
    (huni : RisingThenFalling s) :
    (computePhotoWindows s GOLDEN_DEFAULT BLUE_DEFAULT).golden.length ≤ 2 ∧
      (computePhotoWindows s GOLDEN_DEFAULT BLUE_DEFAULT).blue.length ≤ 2 ∧
      (∀ w ∈ (computePhotoWindows s GOLDEN_DEFAULT BLUE_DEFAULT).golden,
        (∃ p ∈ s, p.minute = w.start) ∧ (∃ p ∈ s, p.minute = w.stop) ∧
          ∀ p ∈ s, w.start ≤ p.minute → p.minute ≤ w.stop →
            0 ≤ p.altitude ∧ p.altitude ≤ 6) ∧
      (∀ w ∈ (computePhotoWindows s GOLDEN_DEFAULT BLUE_DEFAULT).blue,
        (∃ p ∈ s, p.minute = w.start) ∧ (∃ p ∈ s, p.minute = w.stop) ∧
          ∀ p ∈ s, w.start ≤ p.minute → p.minute ≤ w.stop →
            -6 ≤ p.altitude ∧ p.altitude ≤ 0) := by
  obtain ⟨gA, gB, gC, gD⟩ := findWindowsAux_spec (0 : γ) 6
    (fun m => ∃ p ∈ s, p.minute = m) s none none hsort
    (fun p hp _ => ⟨p, hp, rfl⟩) (by simp) (by simp) (by simp) (by simp)
  obtain ⟨bA, bB, bC, bD⟩ := findWindowsAux_spec (-6 : γ) 0
    (fun m => ∃ p ∈ s, p.minute = m) s none none hsort
    (fun p hp _ => ⟨p, hp, rfl⟩) (by simp) (by simp) (by simp) (by simp)
  refine ⟨findWindows_le_two 0 6 s huni, findWindows_le_two (-6) 0 s huni,
    fun w hw => ⟨(gA w hw).2.1, (gA w hw).2.2, gD w hw⟩,
    fun w hw => ⟨(bA w hw).2.1, (bA w hw).2.2, bD w hw⟩⟩

/-- Witness for the amended C4 at the concrete series of the
counterexample. -/
theorem C4_witness :
    (computePhotoWindows
        ([⟨0, -10⟩, ⟨60, -3⟩, ⟨120, 3⟩, ⟨180, 10⟩, ⟨240, 3⟩, ⟨300, -3⟩,
          ⟨360, -10⟩] : List (SamplePoint ℤ))
        GOLDEN_DEFAULT BLUE_DEFAULT).golden.length ≤ 2 :=
  (C4_at_most_two_windows _ (by decide)
    ⟨[⟨0, -10⟩, ⟨60, -3⟩, ⟨120, 3⟩, ⟨180, 10⟩],
      [⟨240, 3⟩, ⟨300, -3⟩, ⟨360, -10⟩], rfl, by decide, by decide⟩).1

end SunAtlas
